import Mathlib

/-!
Verification development for the typed-sdk-builder repository
(`src/index.ts`, class `SDKBuilder`).

The TypeScript runtime values that flow through the SDK are modelled by the
mutual inductive `JVal` / `JList` / `JFields` below (plain JS values: null,
undefined, booleans, numbers, strings, `File` objects, arrays, objects).
JS numbers are modelled as integers: every number the claims exercise is an
integer, and none of the verified code paths perform arithmetic that could
leave the integers.  DOM form elements (`HTMLFormElement`) are not part of
the value model, so the `instanceof HTMLFormElement` branches of the source
are vacuous here; they are never exercised by the claims.

Platform primitives (the `fetch` transport, the `onInvalidCredential`
callback, the session snapshot) are oracles passed to the embedded call
function, mirroring how the source consumes them.
-/

set_option maxRecDepth 4000

mutual

inductive JVal : Type where
  | null : JVal
  | undefined : JVal
  | bool : Bool → JVal
  | num : Int → JVal
  | str : String → JVal
  | file : String → JVal
  | arr : JList → JVal
  | obj : JFields → JVal

inductive JList : Type where
  | nil : JList
  | cons : JVal → JList → JList

inductive JFields : Type where
  | fnil : JFields
  | fcons : String → JVal → JFields → JFields

end

/-- An apostrophe character, used to rebuild the quoted parts of the message
strings of the source. -/
def apos : String := (Char.ofNat 39).toString

/-- JS truthiness (`Boolean(v)`).  `NaN` does not arise in the integer model. -/
def jsTruthy : JVal → Bool
  | .null => false
  | .undefined => false
  | .bool b => b
  | .num n => n ≠ 0
  | .str s => s ≠ ""
  | _ => true

/-- Whether `typeof v === "object"` holds in JS (true for null, arrays,
objects and `File` instances). -/
def typeofIsObject : JVal → Bool
  | .null => true
  | .obj _ => true
  | .arr _ => true
  | .file _ => true
  | _ => false

/-- Whether `typeof v === "string"` holds. -/
def isStrB : JVal → Bool
  | .str _ => true
  | _ => false

/-- The payload of a string value (defaulting to ""). -/
def strOf : JVal → String
  | .str s => s
  | _ => ""

/-- Lookup of an own property in the field list of an object (first binding). -/
def JFields.lookup : JFields → String → Option JVal
  | .fnil, _ => none
  | .fcons k v tl, key => if k = key then some v else tl.lookup key

/-- Remove every binding of a key (`delete o.k`; JS objects have unique keys,
so removing all bindings coincides with removing the one binding). -/
def JFields.erase : JFields → String → JFields
  | .fnil, _ => .fnil
  | .fcons k v tl, key => if k = key then tl.erase key else .fcons k v (tl.erase key)

/-- Replace the value of the first binding of a key, or append a new binding
(JS property assignment `o.k = v`). -/
def JFields.setKey : JFields → String → JVal → JFields
  | .fnil, key, w => .fcons key w .fnil
  | .fcons k v tl, key, w =>
    if k = key then .fcons k w tl else .fcons k v (tl.setKey key w)

/-- Property read `v.k` / `v?.k` as the source uses it: own property of an
object, `undefined` otherwise.  (The source never performs a bare property
read on null/undefined except in `_isActualEndpointConfig`, which is
modelled separately with its TypeError.) -/
def getField (v : JVal) (k : String) : JVal :=
  match v with
  | .obj fs => (fs.lookup k).getD .undefined
  | _ => .undefined

/-- Index-keyed field list of an array, as produced by `Object.entries`. -/
def indexFields (i : Nat) : JList → JFields
  | .nil => .fnil
  | .cons v tl => .fcons (toString i) v (indexFields (i + 1) tl)

/-- Own enumerable entries of a value (`Object.entries`): the fields of an
object, the index-keyed elements of an array, nothing for primitives and
`File` values. -/
def jvalOwnEntries : JVal → JFields
  | .obj fs => fs
  | .arr xs => indexFields 0 xs
  | _ => .fnil

/-- JS logical or (`a || b`). -/
def jsOr (a b : JVal) : JVal := if jsTruthy a then a else b

/-- Conversion of `JFields` to a plain association list (for stating
specification-level properties). -/
def JFields.toList : JFields → List (String × JVal)
  | .fnil => []
  | .fcons k v tl => (k, v) :: tl.toList

/-- Conversion of `JList` to a plain list. -/
def JList.toList : JList → List JVal
  | .nil => []
  | .cons v tl => v :: tl.toList

mutual

/-- JS `String(v)` coercion. -/
def jsToString : JVal → String
  | .null => "null"
  | .undefined => "undefined"
  | .bool b => if b then "true" else "false"
  | .num n => toString n
  | .str s => s
  | .file _ => "[object File]"
  | .arr xs => jsToStringArr xs
  | .obj _ => "[object Object]"

/-- Array `toString`: elements joined by commas, null/undefined elements
rendered as the empty string. -/
def jsToStringArr : JList → String
  | .nil => ""
  | .cons v tl =>
    (match v with
     | .null => ""
     | .undefined => ""
     | w => jsToString w) ++
    (match tl with
     | .nil => ""
     | t => "," ++ jsToStringArr t)

end

/-- Hex digit (uppercase), for percent-encoding. -/
def hexDigit (n : Nat) : Char :=
  (("0123456789ABCDEF".toList).getD n (Char.ofNat 48))

/-- Two-digit uppercase hex of a byte. -/
def hexByte (n : Nat) : String :=
  (hexDigit (n / 16)).toString ++ (hexDigit (n % 16)).toString

/-- UTF-8 bytes of a character (explicit arithmetic so the kernel can
evaluate it). -/
def utf8Bytes (c : Char) : List Nat :=
  let n := c.toNat
  if n < 128 then [n]
  else if n < 2048 then [192 + n / 64, 128 + n % 64]
  else if n < 65536 then [224 + n / 4096, 128 + (n / 64) % 64, 128 + n % 64]
  else [240 + n / 262144, 128 + (n / 4096) % 64, 128 + (n / 64) % 64, 128 + n % 64]

/-- Characters `encodeURIComponent` leaves unescaped. -/
def uriUnreserved (c : Char) : Bool :=
  (Char.ofNat 65 ≤ c && c ≤ Char.ofNat 90) ||
  (Char.ofNat 97 ≤ c && c ≤ Char.ofNat 122) ||
  (Char.ofNat 48 ≤ c && c ≤ Char.ofNat 57) ||
  c = Char.ofNat 45 || c = Char.ofNat 95 || c = Char.ofNat 46 ||
  c = Char.ofNat 33 || c = Char.ofNat 126 || c = Char.ofNat 42 ||
  c = Char.ofNat 39 || c = Char.ofNat 40 || c = Char.ofNat 41

/-- JS `encodeURIComponent`. -/
def encodeURIComponent (s : String) : String :=
  String.join (s.toList.map fun c =>
    if uriUnreserved c then c.toString
    else String.join ((utf8Bytes c).map fun b => "%" ++ hexByte b))

/-- JSON string escaping as performed by `JSON.stringify` on a single
character. -/
def jsonEscCh (c : Char) : String :=
  if c = Char.ofNat 34 then "\\\""
  else if c = Char.ofNat 92 then "\\\\"
  else if c = Char.ofNat 8 then "\\b"
  else if c = Char.ofNat 9 then "\\t"
  else if c = Char.ofNat 10 then "\\n"
  else if c = Char.ofNat 12 then "\\f"
  else if c = Char.ofNat 13 then "\\r"
  else if c.toNat < 32 then
    "\\u00" ++ (hexDigit (c.toNat / 16)).toString.toLower ++ (hexDigit (c.toNat % 16)).toString.toLower
  else c.toString

/-- JSON quoting of a string (`JSON.stringify` on a string value). -/
def jsonQuote (s : String) : String :=
  "\"" ++ String.join (s.toList.map jsonEscCh) ++ "\""

/-- Join a list of strings with commas. -/
def joinComma : List String → String
  | [] => ""
  | [s] => s
  | s :: rest => s ++ "," ++ joinComma rest

mutual

/-- JS `JSON.stringify`.  `none` models the JS result `undefined` (only for
the value `undefined`; functions/symbols do not occur in the model).  A
`File` has no own enumerable properties, so it serializes as an empty
object. -/
def jsonStr : JVal → Option String
  | .undefined => none
  | .null => some "null"
  | .bool b => some (if b then "true" else "false")
  | .num n => some (toString n)
  | .str s => some (jsonQuote s)
  | .file _ => some "\x7b\x7d"
  | .arr xs => some ("[" ++ joinComma (jsonStrArr xs) ++ "]")
  | .obj fs => some ("\x7b" ++ joinComma (jsonStrFields fs) ++ "\x7d")

/-- Array elements for `JSON.stringify` (undefined elements become null). -/
def jsonStrArr : JList → List String
  | .nil => []
  | .cons v tl => ((jsonStr v).getD "null") :: jsonStrArr tl

/-- Object members for `JSON.stringify` (undefined-valued fields omitted). -/
def jsonStrFields : JFields → List String
  | .fnil => []
  | .fcons k v tl =>
    match jsonStr v with
    | none => jsonStrFields tl
    | some sv => (jsonQuote k ++ ":" ++ sv) :: jsonStrFields tl

end

/-! URL building (`_buildUrl`, source lines 218-247). -/

/-- Whether a character matches the regex class backslash-w
(`[A-Za-z0-9_]`). -/
def isWordCh (c : Char) : Bool :=
  c.isAlpha || c.isDigit || c = Char.ofNat 95

/-- Drop one trailing slash, as `pathname.replace` with the anchored
single-slash pattern does. -/
def trimTrailSlash (s : String) : String :=
  match s.toList.reverse with
  | c :: rest => if c = Char.ofNat 47 then String.mk rest.reverse else s
  | [] => s

/-- Drop one leading slash, as `path.replace` with the anchored
single-slash pattern does. -/
def trimLeadSlash (s : String) : String :=
  match s.toList with
  | c :: rest => if c = Char.ofNat 47 then String.mk rest else s
  | [] => s

/-- Replace the first `:name` placeholder (a colon followed by a maximal
nonempty run of word characters) by `rep`, character-list version.  Mirrors
`tempPath.match` with the colon-word regex followed by
`tempPath.replace(match[0], rep)`. -/
def replaceFirstPhCh (rep : List Char) : List Char → List Char
  | [] => []
  | [c] => [c]
  | c1 :: c2 :: rest =>
    if c1 = Char.ofNat 58 && isWordCh c2 then
      rep ++ List.dropWhile isWordCh (c2 :: rest)
    else
      c1 :: replaceFirstPhCh rep (c2 :: rest)

/-- String version of `replaceFirstPhCh`. -/
def replaceFirstPh (s rep : String) : String :=
  String.mk (replaceFirstPhCh rep.toList s.toList)

/-- Whether `pat` is a prefix of `s` (character lists). -/
def matchesAt : List Char → List Char → Bool
  | [], _ => true
  | _ :: _, [] => false
  | p :: ps, c :: cs => p = c && matchesAt ps cs

/-- Replace every occurrence of the nonempty pattern `p0 :: ptl` by `rep`
(the source builds a global regex from `":" ++ key`; for keys made of word
characters, which is the only shape the claims exercise, this is literal
global replacement). -/
def replaceAllCh (p0 : Char) (ptl rep : List Char) : List Char → List Char
  | [] => []
  | c :: rest =>
    if c = p0 && matchesAt ptl rest then
      rep ++ replaceAllCh p0 ptl rep (rest.drop ptl.length)
    else
      c :: replaceAllCh p0 ptl rep rest
termination_by l => l.length
decreasing_by
  · simp only [List.length_cons, List.length_drop]
    omega
  · simp only [List.length_cons]
    omega

/-- String version of global literal replacement with pattern `":" ++ key`. -/
def replaceAllPh (s key rep : String) : String :=
  String.mk (replaceAllCh (Char.ofNat 58) key.toList rep.toList s.toList)

/-- Whether a string contains a substring (`String.prototype.includes`). -/
def jsIncludes (s sub : String) : Bool :=
  decide ((s.splitOn sub).length ≥ 2)

/-- String of the substitution value for a named path parameter:
`encodeURIComponent(String(value ?? ""))`. -/
def namedParamRep (v : JVal) : String :=
  match v with
  | .null => encodeURIComponent ""
  | .undefined => encodeURIComponent ""
  | w => encodeURIComponent (jsToString w)

/-- Named substitution pass: for each entry of the parameter object, if the
path contains `:key`, replace every occurrence of it. -/
def substNamed (s : String) : JFields → String
  | .fnil => s
  | .fcons k v tl =>
    let s2 := if jsIncludes s (":" ++ k) then replaceAllPh s k (namedParamRep v) else s
    substNamed s2 tl

/-- A URL as the source manipulates it: origin, pathname, and the ordered
search parameters.  `href` is origin ++ pathname ++ serialized query. -/
structure JsUrl where
  origin : String
  pathname : String
  search : List (String × String)
deriving Repr

/-- Endpoint configuration (`EndpointConfig`). -/
structure EndpointConfig where
  path : String
  method : String
deriving Repr

/-- The URL builder (`_buildUrl`): join base pathname and endpoint path with
one slash after trimming, then substitute path parameters — a scalar
(string/number) source replaces the first placeholder found, an object
source substitutes each `:key` it names, and other sources (null, undefined,
booleans, or an absent argument) leave the path untouched. -/
def buildUrl (base : JsUrl) (cfgPath : String) (p : Option JVal) : JsUrl :=
  let baseP := trimTrailSlash base.pathname
  let endpointP := trimLeadSlash cfgPath
  let joined := baseP ++ "/" ++ endpointP
  let tempPath :=
    match p with
    | none => joined
    | some .undefined => joined
    | some .null => joined
    | some (.str s) => replaceFirstPh joined (encodeURIComponent s)
    | some (.num n) => replaceFirstPh joined (encodeURIComponent (toString n))
    | some (.bool _) => joined
    | some v => substNamed joined (jvalOwnEntries v)
  ⟨base.origin, tempPath, base.search⟩

/-! JSON validity (`JSON.parse(payloadSource)` succeeding or throwing, used
only to decide whether a raw string body is tagged `application/json`).
Implemented as a fuel-driven recursive-descent recognizer of the JSON
grammar; the fuel passed by `jsonParsableB` is always sufficient because
every recursive call either consumes a character or moves to a
subproblem after consuming one. -/

/-- JSON whitespace. -/
def jsonWs (c : Char) : Bool :=
  c = Char.ofNat 32 || c = Char.ofNat 9 || c = Char.ofNat 10 || c = Char.ofNat 13

/-- Skip JSON whitespace. -/
def skipWs (cs : List Char) : List Char := cs.dropWhile jsonWs

/-- Recognize digits (at least one). -/
def jsonDigits : List Char → Option (List Char)
  | c :: rest => if c.isDigit then some (rest.dropWhile Char.isDigit) else none
  | [] => none

/-- Recognize a JSON number after an optional leading minus sign. -/
def jsonNumTail (cs : List Char) : Option (List Char) := do
  let afterInt ←
    match cs with
    | c :: rest =>
      if c = Char.ofNat 48 then some rest
      else if c.isDigit then some (rest.dropWhile Char.isDigit)
      else none
    | [] => none
  let afterFrac ←
    match afterInt with
    | c :: rest => if c = Char.ofNat 46 then jsonDigits rest else some afterInt
    | [] => some afterInt
  match afterFrac with
  | c :: rest =>
    if c = Char.ofNat 101 || c = Char.ofNat 69 then
      match rest with
      | d :: rest2 =>
        if d = Char.ofNat 43 || d = Char.ofNat 45 then jsonDigits rest2 else jsonDigits rest
      | [] => none
    else some afterFrac
  | [] => some afterFrac

/-- Hexadecimal digit test. -/
def isHexCh (c : Char) : Bool :=
  c.isDigit || (Char.ofNat 97 ≤ c && c ≤ Char.ofNat 102) ||
  (Char.ofNat 65 ≤ c && c ≤ Char.ofNat 70)

/-- Recognize the body of a JSON string after the opening quote. -/
def jsonStrTail : List Char → Option (List Char)
  | [] => none
  | c :: rest =>
    if c = Char.ofNat 34 then some rest
    else if c = Char.ofNat 92 then
      match rest with
      | e :: rest2 =>
        if e = Char.ofNat 34 || e = Char.ofNat 92 || e = Char.ofNat 47 ||
           e = Char.ofNat 98 || e = Char.ofNat 102 || e = Char.ofNat 110 ||
           e = Char.ofNat 114 || e = Char.ofNat 116 then jsonStrTail rest2
        else if e = Char.ofNat 117 then
          match rest2 with
          | h1 :: h2 :: h3 :: h4 :: rest3 =>
            if isHexCh h1 && isHexCh h2 && isHexCh h3 && isHexCh h4 then
              jsonStrTail rest3
            else none
          | _ => none
        else none
      | [] => none
    else if c.toNat < 32 then none
    else jsonStrTail rest

/-- Recognize a literal keyword. -/
def jsonLit (kw : List Char) (cs : List Char) : Option (List Char) :=
  if matchesAt kw cs then some (cs.drop kw.length) else none

mutual

/-- Recognize one JSON value (consuming leading whitespace first). -/
def jsonVal (fuel : Nat) (cs : List Char) : Option (List Char) :=
  match fuel with
  | 0 => none
  | fuel + 1 =>
    match skipWs cs with
    | [] => none
    | c :: rest =>
      if c = Char.ofNat 34 then jsonStrTail rest
      else if c = Char.ofNat 91 then
        match skipWs rest with
        | d :: rest2 =>
          if d = Char.ofNat 93 then some rest2
          else jsonElems fuel (d :: rest2)
        | [] => none
      else if c = Char.ofNat 123 then
        match skipWs rest with
        | d :: rest2 =>
          if d = Char.ofNat 125 then some rest2
          else jsonMembers fuel (d :: rest2)
        | [] => none
      else if c = Char.ofNat 45 then jsonNumTail rest
      else if c.isDigit then jsonNumTail (c :: rest)
      else if c = Char.ofNat 116 then jsonLit "rue".toList rest
      else if c = Char.ofNat 102 then jsonLit "alse".toList rest
      else if c = Char.ofNat 110 then jsonLit "ull".toList rest
      else none

/-- Recognize comma-separated array elements up to the closing bracket. -/
def jsonElems (fuel : Nat) (cs : List Char) : Option (List Char) :=
  match fuel with
  | 0 => none
  | fuel + 1 =>
    match jsonVal fuel cs with
    | none => none
    | some rest =>
      match skipWs rest with
      | c :: rest2 =>
        if c = Char.ofNat 44 then jsonElems fuel rest2
        else if c = Char.ofNat 93 then some rest2
        else none
      | [] => none

/-- Recognize comma-separated object members up to the closing brace. -/
def jsonMembers (fuel : Nat) (cs : List Char) : Option (List Char) :=
  match fuel with
  | 0 => none
  | fuel + 1 =>
    match skipWs cs with
    | c :: rest =>
      if c = Char.ofNat 34 then
        match jsonStrTail rest with
        | none => none
        | some rest2 =>
          match skipWs rest2 with
          | d :: rest3 =>
            if d = Char.ofNat 58 then
              match jsonVal fuel rest3 with
              | none => none
              | some rest4 =>
                match skipWs rest4 with
                | e :: rest5 =>
                  if e = Char.ofNat 44 then jsonMembers fuel rest5
                  else if e = Char.ofNat 125 then some rest5
                  else none
                | [] => none
            else none
          | [] => none
      else none
    | [] => none

end

/-- Whether `JSON.parse(s)` succeeds. -/
def jsonParsableB (s : String) : Bool :=
  match jsonVal (2 * s.length + 4) s.toList with
  | some rest => skipWs rest = []
  | none => false

/-! Payload encoding (`_prepareRequestBodyAndHeaders`, source lines 249-318,
and `_createFormDataFromObject`, lines 320-341). -/

/-- A value stored in a `FormData` entry: a string or a `File`. -/
inductive FormVal : Type where
  | str : String → FormVal
  | file : String → FormVal
deriving Repr

/-- A request body (`BodyInit`): a string body or a `FormData` body, the
latter as its ordered entry list. -/
inductive BodyVal : Type where
  | str : String → BodyVal
  | form : List (String × FormVal) → BodyVal
deriving Repr

/-- Result of the payload encoder: body, request-specific headers, and the
query parameters it appended to the URL. -/
structure PrepResult where
  body : Option BodyVal
  headers : List (String × String)
  query : List (String × String)
deriving Repr

/-- Whether a value is a `File` instance. -/
def isFileV : JVal → Bool
  | .file _ => true
  | _ => false

/-- Whether some element of an array is a `File`
(`value.some(v => v instanceof File)`). -/
def jlistAnyFile : JList → Bool
  | .nil => false
  | .cons v tl => isFileV v || jlistAnyFile tl

/-- One disjunct of the `hasFiles` scan: the value is a `File`, or an array
with a `File` element. -/
def valHasFile (v : JVal) : Bool :=
  match v with
  | .file _ => true
  | .arr xs => jlistAnyFile xs
  | _ => false

/-- The `hasFiles` scan over the own values of the payload (source lines
299-301): only top-level values and direct elements of top-level arrays are
examined. -/
def hasFilesTop : JFields → Bool
  | .fnil => false
  | .fcons _ v tl => valHasFile v || hasFilesTop tl

mutual

/-- The forEach body of `_createFormDataFromObject` applied to one entry
value at its computed key. -/
def createFDVal (currentKey : String) : JVal → List (String × FormVal)
  | .file name => [(currentKey, .file name)]
  | .arr xs => createFDArr currentKey 0 xs
  | .obj fs => createFD (some currentKey) fs
  | .null => []
  | .undefined => []
  | v => [(currentKey, .str (jsToString v))]

/-- `_createFormDataFromObject` over the fields of an object with an optional
parent key (bracketed key for nesting). -/
def createFD (parentKey : Option String) : JFields → List (String × FormVal)
  | .fnil => []
  | .fcons k v tl =>
    let currentKey := match parentKey with | none => k | some p => p ++ "[" ++ k ++ "]"
    createFDVal currentKey v ++ createFD parentKey tl

/-- The array branch of `_createFormDataFromObject`: items are keyed
`currentKey[idx]`; non-`File` objects and arrays recurse, null/undefined
items are skipped, everything else is appended as a string or `File`. -/
def createFDArr (currentKey : String) (i : Nat) : JList → List (String × FormVal)
  | .nil => []
  | .cons item tl =>
    let arrayKey := currentKey ++ "[" ++ toString i ++ "]"
    (match item with
     | .obj fs => createFD (some arrayKey) fs
     | .arr xs => createFDEntriesArr arrayKey 0 xs
     | .null => []
     | .undefined => []
     | .file name => [(arrayKey, .file name)]
     | v => [(arrayKey, .str (jsToString v))]) ++
    createFDArr currentKey (i + 1) tl

/-- `_createFormDataFromObject` called on an array value: `Object.entries`
of an array yields its index-keyed elements, each processed by the main
dispatch. -/
def createFDEntriesArr (parentKey : String) (i : Nat) : JList → List (String × FormVal)
  | .nil => []
  | .cons v tl =>
    createFDVal (parentKey ++ "[" ++ toString i ++ "]") v ++
    createFDEntriesArr parentKey (i + 1) tl

end

/-- Index-keyed top-level entries of an array payload. -/
def createFDTopArr (i : Nat) : JList → List (String × FormVal)
  | .nil => []
  | .cons v tl => createFDVal (toString i) v ++ createFDTopArr (i + 1) tl

/-- Top-level `_createFormDataFromObject(payloadSource)` (no parent key):
object fields directly, or index-keyed entries for an array payload. -/
def createFDTop : JVal → List (String × FormVal)
  | .obj fs => createFD none fs
  | .arr xs => createFDTopArr 0 xs
  | _ => []

/-- Query expansion of an array value (`val.forEach`): null items are
skipped (undefined items are not — the source only tests `!== null` here),
others appended as `String(item)`. -/
def queryArr (k : String) : JList → List (String × String)
  | .nil => []
  | .cons v tl =>
    (match v with
     | .null => []
     | w => [(k, jsToString w)]) ++ queryArr k tl

/-- Query expansion of one payload entry: null/undefined values skipped,
arrays expanded to repeated pairs, others appended as `String(val)`. -/
def queryEntry (k : String) (v : JVal) : List (String × String) :=
  match v with
  | .undefined => []
  | .null => []
  | .arr xs => queryArr k xs
  | w => [(k, jsToString w)]

/-- The GET/DELETE query loop over the fields of an object. -/
def buildQuery : JFields → List (String × String)
  | .fnil => []
  | .fcons k v tl => queryEntry k v ++ buildQuery tl

/-- The GET/DELETE query loop over the index-keyed entries of an array payload. -/
def buildQueryArr (i : Nat) : JList → List (String × String)
  | .nil => []
  | .cons v tl => queryEntry (toString i) v ++ buildQueryArr (i + 1) tl

/-- Query pairs appended for a GET/DELETE payload (`Object.entries` of the
payload when it is object-typed; primitives contribute nothing). -/
def queryOf : JVal → List (String × String)
  | .obj fs => buildQuery fs
  | .arr xs => buildQueryArr 0 xs
  | _ => []

/-- The payload encoder (`_prepareRequestBodyAndHeaders`).  A falsy payload
(absent, null, empty string, 0, false) produces nothing.  GET/DELETE turn an
object payload into query parameters and never produce a body.  Other
methods: an object/array payload is encoded as multipart `FormData` when the
shallow `hasFiles` scan finds a `File`, else JSON with
`Content-Type: application/json`; a raw string payload is used verbatim,
tagged as JSON only when it parses as JSON.  (The `HTMLFormElement` branch
of the source is outside the value model and unreachable here.) -/
def prepareBody (method : String) (payload : Option JVal) : PrepResult :=
  let pv := payload.getD .undefined
  if ¬ jsTruthy pv then ⟨none, [], []⟩
  else if method = "GET" || method = "DELETE" then
    ⟨none, [], if typeofIsObject pv then queryOf pv else []⟩
  else
    match pv with
    | .str s =>
      ⟨some (.str s), if jsonParsableB s then [("Content-Type", "application/json")] else [], []⟩
    | .obj fs =>
      if hasFilesTop fs then ⟨some (.form (createFD none fs)), [], []⟩
      else ⟨some (.str ((jsonStr (.obj fs)).getD "")), [("Content-Type", "application/json")], []⟩
    | .arr xs =>
      if hasFilesTop (indexFields 0 xs) then ⟨some (.form (createFDTop (.arr xs))), [], []⟩
      else ⟨some (.str ((jsonStr (.arr xs)).getD "")), [("Content-Type", "application/json")], []⟩
    | .file name =>
      ⟨some (.str ((jsonStr (.file name)).getD "")), [("Content-Type", "application/json")], []⟩
    | _ => ⟨none, [], []⟩

/-! Endpoint tree walker (`_initializeEndpoints` and
`_isActualEndpointConfig`, source lines 94-115). -/

/-- A JS exception, by its `name` and `message`. -/
structure JsError : Type where
  name : String
  message : String
deriving Repr

/-- The TypeError raised by reading a property of null or undefined (as
`_isActualEndpointConfig` does when handed such a node). -/
def typeErrRead (whatv : String) : JsError :=
  ⟨"TypeError", "Cannot read properties of " ++ whatv ++ " (reading " ++ apos ++ "path" ++ apos ++ ")"⟩

/-- A node of the generated client: a generated request function (closing
over its endpoint configuration and debug path) or a nested group object. -/
inductive ClientNode : Type where
  | func : EndpointConfig → String → ClientNode
  | group : List (String × ClientNode) → ClientNode

/-- `_isActualEndpointConfig`: the node has a string `path` and a string
`method`.  Callable only on non-null non-undefined values (property reads on
those throw; the walker models that separately). -/
def isLeafB (v : JVal) : Bool :=
  isStrB (getField v "path") && isStrB (getField v "method")

/-- Debug path of a child key (`parentKeyPath ? parent.key : key`). -/
def childPath (parent k : String) : String :=
  if parent = "" then k else parent ++ "." ++ k

/-- Warning text logged for an invalid endpoint node. -/
def warnText (path : String) : String :=
  "[SDKBuilder] Invalid configuration for endpoint key: " ++ path ++
  ". Expected an object or EndpointConfig."

mutual

/-- Processing of one configuration value by the forEach body of the walker:
a null/undefined node throws a TypeError from the property read inside
`_isActualEndpointConfig`; a leaf-shaped node becomes a generated function;
any other object (including arrays and `File`s, whose `typeof` is
"object") becomes a group populated recursively; anything else is skipped
with a warning. -/
def initEntryVal (path : String) (v : JVal) :
    Except JsError (Option ClientNode × List String) :=
  match v with
  | .null => .error (typeErrRead "null")
  | .undefined => .error (typeErrRead "undefined")
  | w =>
    if isLeafB w then
      .ok (some (.func ⟨strOf (getField w "path"), strOf (getField w "method")⟩ path), [])
    else
      match w with
      | .obj fs =>
        match initEntries path fs with
        | .error e => .error e
        | .ok (children, ws) => .ok (some (.group children), ws)
      | .arr xs =>
        match initEntriesArr path 0 xs with
        | .error e => .error e
        | .ok (children, ws) => .ok (some (.group children), ws)
      | .file _ => .ok (some (.group []), [])
      | _ => .ok (none, [warnText path])

/-- `_initializeEndpoints` over the fields of an object: processes entries in
order, collecting child nodes and warnings; a thrown error aborts the
walk. -/
def initEntries (parent : String) : JFields →
    Except JsError (List (String × ClientNode) × List String)
  | .fnil => .ok ([], [])
  | .fcons k v tl =>
    match initEntryVal (childPath parent k) v with
    | .error e => .error e
    | .ok (n, ws1) =>
      match initEntries parent tl with
      | .error e => .error e
      | .ok (ns, ws2) =>
        .ok ((match n with | some node => [(k, node)] | none => []) ++ ns, ws1 ++ ws2)

/-- `_initializeEndpoints` over an array node (its `Object.entries` are its
index-keyed elements). -/
def initEntriesArr (parent : String) (i : Nat) : JList →
    Except JsError (List (String × ClientNode) × List String)
  | .nil => .ok ([], [])
  | .cons v tl =>
    match initEntryVal (childPath parent (toString i)) v with
    | .error e => .error e
    | .ok (n, ws1) =>
      match initEntriesArr parent (i + 1) tl with
      | .error e => .error e
      | .ok (ns, ws2) =>
        .ok ((match n with | some node => [(toString i, node)] | none => []) ++ ns, ws1 ++ ws2)

end

/-- Construction-time endpoint initialization: the walker started at the
root of the endpoints configuration with an empty parent key path. -/
def initEndpoints (endpoints : JFields) :
    Except JsError (List (String × ClientNode) × List String) :=
  initEntries "" endpoints

/-! Argument resolution, dispatch and response normalization
(`_generateFetchFunction`, source lines 117-216). -/

/-- Resolved call arguments: the path-parameter source and the payload
(`none` models an undefined JS value at this layer). -/
structure ResolvedArgs : Type where
  pathParams : Option JVal
  payload : Option JVal

/-- The test applied to each `$params` entry: `typeof value === "object" &&
value !== null` (arrays and `File`s are objects; null is excluded). -/
def isNonScalarParam : JVal → Bool
  | .null => false
  | v => typeofIsObject v

/-- First `$params` entry failing the scalar check, if any (the forEach of
the source throws at the first offender). -/
def firstBadParam : JFields → Option (String × JVal)
  | .fnil => none
  | .fcons k v tl => if isNonScalarParam v then some (k, v) else firstBadParam tl

/-- The error thrown for a non-scalar `$params` entry. -/
def validationError (k : String) (v : JVal) : JsError :=
  ⟨"Error",
   "Path parameter " ++ apos ++ k ++ apos ++
   " in $params cannot be an object. Received: " ++ ((jsonStr v).getD "undefined")⟩

/-- Spread copy of the single combined argument (`{ ...idOrParamsPayload }`):
own enumerable entries become the fields of a fresh object. -/
def spreadFields (v : JVal) : JFields := jvalOwnEntries v

/-- Argument resolution (source lines 128-148).  With a second argument, the
first is the path-parameter source and the second the payload.  A single
non-null object argument is a combined bag: a truthy object-typed `$params`
member is validated (all entries scalar, else the call throws), extracted as
the path-parameter source and deleted from a shallow copy, whose remaining
fields form the payload.  Otherwise the single argument (scalar or absent)
is the path-parameter source and there is no payload. -/
def resolveArgs (a b : Option JVal) : Except JsError ResolvedArgs :=
  match b with
  | some bv => .ok ⟨a, some bv⟩
  | none =>
    match a with
    | none => .ok ⟨none, none⟩
    | some av =>
      match av with
      | .obj _ | .arr _ | .file _ =>
        let copyFields := spreadFields av
        let pv := (copyFields.lookup "$params").getD .undefined
        if jsTruthy pv && typeofIsObject pv then
          match firstBadParam (jvalOwnEntries pv) with
          | some (k, v) => .error (validationError k v)
          | none => .ok ⟨some pv, some (.obj (copyFields.erase "$params"))⟩
        else .ok ⟨none, some (.obj copyFields)⟩
      | w => .ok ⟨some w, none⟩

/-- ASCII lowercase of a character. -/
def lowerCh (c : Char) : Char :=
  if Char.ofNat 65 ≤ c && c ≤ Char.ofNat 90 then Char.ofNat (c.toNat + 32) else c

/-- ASCII lowercase of a string (header names are ASCII). -/
def lowerStr (s : String) : String := String.mk (s.toList.map lowerCh)

/-- Case-insensitive header map update (`Headers.prototype.set`; the Headers
object normalizes names to lowercase). -/
def headersSet (hs : List (String × String)) (name value : String) : List (String × String) :=
  let n := lowerStr name
  if hs.any (fun p => p.1 = n) then hs.map (fun p => if p.1 = n then (n, value) else p)
  else hs ++ [(n, value)]

/-- Case-insensitive header lookup (`Headers.prototype.get`, modulo the
null/string distinction). -/
def headersGet (hs : List (String × String)) (name : String) : Option String :=
  (hs.find? (fun p => p.1 = lowerStr name)).map (fun p => p.2)

/-- Fold a list of name/value pairs into a header map (the `Headers`
constructor followed by the `forEach`/`set` loop of the source). -/
def headersOf (init : List (String × String)) (pairs : List (String × String)) :
    List (String × String) :=
  pairs.foldl (fun hs p => headersSet hs p.1 p.2) init

/-- Exact-key property assignment on a plain string map. -/
def setExactKey (m : List (String × String)) (k v : String) : List (String × String) :=
  if m.any (fun p => p.1 = k) then m.map (fun p => if p.1 = k then (k, v) else p)
  else m ++ [(k, v)]

/-- Constructor-time default headers: the configured map, or
`Accept: application/json`; an `Accept` entry is assigned when the
configured `Accept` entry (exact key, as in the source) is falsy. -/
def resolveDefaultHeaders (cfg : Option (List (String × String))) : List (String × String) :=
  match cfg with
  | none => [("Accept", "application/json")]
  | some dh =>
    if (dh.find? (fun p => p.1 = "Accept")).elim true (fun p => p.2 = "") then
      setExactKey dh "Accept" "application/json"
    else dh

/-- Constructor-time timeout resolution: `config.requestTimeout || 30000`
(zero is falsy and also falls back to the default). -/
def resolveTimeout (cfg : Option Nat) : Nat :=
  match cfg with
  | none => 30000
  | some t => if t = 0 then 30000 else t

/-- Characters that `application/x-www-form-urlencoded` serialization leaves
unescaped (`URLSearchParams.toString`). -/
def formUnreserved (c : Char) : Bool :=
  (Char.ofNat 65 ≤ c && c ≤ Char.ofNat 90) ||
  (Char.ofNat 97 ≤ c && c ≤ Char.ofNat 122) ||
  (Char.ofNat 48 ≤ c && c ≤ Char.ofNat 57) ||
  c = Char.ofNat 42 || c = Char.ofNat 45 || c = Char.ofNat 46 || c = Char.ofNat 95

/-- Serialization of one form-urlencoded component (space becomes `+`). -/
def formEnc (s : String) : String :=
  String.join (s.toList.map fun c =>
    if formUnreserved c then c.toString
    else if c = Char.ofNat 32 then "+"
    else String.join ((utf8Bytes c).map fun b => "%" ++ hexByte b))

/-- Join with ampersands. -/
def joinAmp : List String → String
  | [] => ""
  | [s] => s
  | s :: rest => s ++ "&" ++ joinAmp rest

/-- Serialized query string including the leading question mark when
nonempty. -/
def serializeQuery (q : List (String × String)) : String :=
  match q with
  | [] => ""
  | _ => "?" ++ joinAmp (q.map fun p => formEnc p.1 ++ "=" ++ formEnc p.2)

/-- The `href` of a URL value. -/
def hrefOf (u : JsUrl) : String :=
  u.origin ++ u.pathname ++ serializeQuery u.search

/-- The request handed to the transport. -/
structure HttpReq : Type where
  method : String
  href : String
  headers : List (String × String)
  body : Option BodyVal
deriving Repr

/-- An HTTP response as the normalizer consumes it: status, content type,
whether a body stream is present, and the oracle results of `json()` /
`text()` (`none` models those promises rejecting, which the source converts
to null). -/
structure HttpResp : Type where
  status : Nat
  contentType : Option String
  hasBody : Bool
  jsonResult : Option JVal
  textResult : Option String

/-- Outcome of the transport: a response, or a thrown/rejected error
(network failure, or the TimeoutError delivered when the deadline of the
abort signal expires). -/
inductive FetchOutcome : Type where
  | resp : HttpResp → FetchOutcome
  | err : JsError → FetchOutcome

/-- Behavior of the `onInvalidCredential` callback when invoked: return
(resolve) normally, or throw/reject with an error. -/
inductive CbBehavior : Type where
  | ret : CbBehavior
  | raise : JsError → CbBehavior

/-- The uniform result envelope (`CustomApiResponse`). -/
structure Envelope : Type where
  success : Bool
  ok : Bool
  response : JVal
  status : Nat

/-- `Response.ok`: status in the inclusive 200-299 range. -/
def okOf (status : Nat) : Bool :=
  decide (200 ≤ status ∧ status ≤ 299)

/-- Body parsing by content type (source lines 175-183): nothing on 204 or
a missing body; JSON when the content type contains `application/json`
(parse failure yields null); text when it contains `text/`; null
otherwise. -/
def parseResponseData (r : HttpResp) : JVal :=
  if r.status ≠ 204 && r.hasBody then
    match r.contentType with
    | some ct =>
      if jsIncludes ct "application/json" then (r.jsonResult.getD .null)
      else if jsIncludes ct "text/" then ((r.textResult.map JVal.str).getD .null)
      else .null
    | none => .null
  else .null

/-- Error-message normalization (source lines 186-188): copy a nested
`error.message` to a top-level `message` when the latter is undefined. -/
def normalizeMessage (d : JVal) : JVal :=
  if jsTruthy d && typeofIsObject d &&
     jsTruthy (getField (getField d "error") "message") &&
     (match getField d "message" with | .undefined => true | _ => false) then
    match d with
    | .obj fs => .obj (fs.setKey "message" (getField (getField d "error") "message"))
    | w => w
  else d

/-- The envelope built from an HTTP response (source lines 190-195). -/
def mkEnvelope (r : HttpResp) : Envelope :=
  ⟨okOf r.status, okOf r.status, normalizeMessage (parseResponseData r), r.status⟩

/-- Message of the catch-all failure envelope: the timeout-specific text for
a TimeoutError, else the message of the error with a generic fallback when that
message is empty (falsy). -/
def clientErrorMessage (e : JsError) : String :=
  if e.name = "TimeoutError" then "Request timed out"
  else if e.message = "" then "A client-side error occurred."
  else e.message

/-- The error object as it appears in the `errorDetails` field. -/
def errAsJVal (e : JsError) : JVal :=
  .obj (.fcons "name" (.str e.name) (.fcons "message" (.str e.message) .fnil))

/-- The failure envelope produced by the catch block (source lines
202-214): the call resolves with status 0. -/
def netErrEnvelope (e : JsError) : Envelope :=
  ⟨false, false,
   .obj (.fcons "message" (.str (clientErrorMessage e))
     (.fcons "errorDetails" (errAsJVal e) .fnil)),
   0⟩

/-- The request assembled by a generated call once arguments are resolved:
URL built and parameters substituted, payload encoded, default and
request-specific headers merged, bearer token injected from the session
snapshot when its `token || access_token` is a truthy string. -/
def buildRequest (cfg : EndpointConfig) (base : JsUrl) (defaultHeaders : List (String × String))
    (session : JVal) (ra : ResolvedArgs) : HttpReq :=
  let u0 := buildUrl base cfg.path ra.pathParams
  let prep := prepareBody cfg.method ra.payload
  let u : JsUrl := ⟨u0.origin, u0.pathname, u0.search ++ prep.query⟩
  let h0 := headersOf [] defaultHeaders
  let h1 := headersOf h0 prep.headers
  let tok := jsOr (getField session "token") (getField session "access_token")
  let h2 :=
    if jsTruthy tok && isStrB tok then headersSet h1 "Authorization" ("Bearer " ++ strOf tok)
    else h1
  ⟨cfg.method, hrefOf u, h2, prep.body⟩

/-- Observable outcome of one generated call: its settled result (resolved
envelope or propagated exception), the requests issued to the transport,
and how many times the credential callback was invoked. -/
structure CallResult : Type where
  result : Except JsError Envelope
  requests : List HttpReq
  cbCalls : Nat

/-- One generated call (the async function returned by `_generateFetchFunction`):
resolve the arguments (a validation failure escapes as a rejected call with
no request issued), build and issue the request, normalize the response
into an envelope, and on a 401 invoke the credential callback before
settling.  Both a transport failure and an exception from the callback are
caught by the surrounding try/catch and converted into the status-0 failure
envelope. -/
def generatedCall (cfg : EndpointConfig) (base : JsUrl)
    (defaultHeaders : List (String × String)) (session : JVal)
    (a b : Option JVal) (net : HttpReq → FetchOutcome)
    (cb : Envelope → CbBehavior) : CallResult :=
  match resolveArgs a b with
  | .error e => ⟨.error e, [], 0⟩
  | .ok ra =>
    let req := buildRequest cfg base defaultHeaders session ra
    match net req with
    | .err e => ⟨.ok (netErrEnvelope e), [req], 0⟩
    | .resp r =>
      let env := mkEnvelope r
      if env.status = 401 then
        match cb env with
        | .ret => ⟨.ok env, [req], 1⟩
        | .raise e => ⟨.ok (netErrEnvelope e), [req], 1⟩
      else ⟨.ok env, [req], 0⟩

/-! A small mutable-heap model of the single-combined-argument branch
(source lines 132-144), to state the frame property of claim C10: the
spread `{ ...idOrParamsPayload }` allocates a fresh object and the
subsequent `delete singleArgObject.$params` mutates only that copy. -/

/-- A heap of JS objects, addressed by allocation index. -/
abbrev ObjHeap : Type := List JFields

/-- Heap read (missing addresses read as an empty object; the theorems only
use valid addresses). -/
def heapGet (h : ObjHeap) (i : Nat) : JFields :=
  (List.getD h i .fnil)

/-- The single-combined-argument resolution acting on the heap: `bagId` is
the argument object of the caller.  Returns the new heap, the extracted
path-parameter source, and the address of the payload object. -/
def resolveSingleArgHeap (h : ObjHeap) (bagId : Nat) :
    Except JsError (ObjHeap × Option JVal × Nat) :=
  let copyId := List.length h
  let h1 := h ++ [heapGet h bagId]
  let pv := ((heapGet h1 copyId).lookup "$params").getD .undefined
  if jsTruthy pv && typeofIsObject pv then
    match firstBadParam (jvalOwnEntries pv) with
    | some (k, v) => .error (validationError k v)
    | none =>
      let h2 := List.set h1 copyId ((heapGet h1 copyId).erase "$params")
      .ok (h2, some pv, copyId)
  else .ok (h1, none, copyId)

/-! Theorems.  Concrete fixtures shared by witnesses and counterexamples. -/

/-- The default header set of a client constructed without
`defaultHeaders`. -/
def stdHeaders : List (String × String) := resolveDefaultHeaders none

/-- A base URL fixture: `new URL("http://h/api")` has origin `http://h` and
pathname `/api`. -/
def baseFix : JsUrl := ⟨"http://h", "/api", []⟩

/-- A 401 JSON response fixture. -/
def resp401 : HttpResp :=
  ⟨401, some "application/json", true,
   some (.obj (.fcons "message" (.str "no") .fnil)), none⟩

/-- Claim C1: on an HTTP 401 response the configured `onInvalidCredential`
callback is invoked exactly once, its result is awaited before the call
settles (the callback behavior is sequenced into the call result), and
the envelope returned to the caller still has status 401 with
`success = ok = false`. -/
theorem claim_C1 (cfg : EndpointConfig) (base : JsUrl) (dh : List (String × String))
    (session : JVal) (a b : Option JVal) (ra : ResolvedArgs) (r : HttpResp)
    (cb : Envelope → CbBehavior)
    (hres : resolveArgs a b = .ok ra) (hst : r.status = 401)
    (hcb : cb (mkEnvelope r) = .ret) :
    generatedCall cfg base dh session a b (fun _ => .resp r) cb =
      ⟨.ok (mkEnvelope r), [buildRequest cfg base dh session ra], 1⟩ ∧
    (mkEnvelope r).status = 401 ∧ (mkEnvelope r).success = false ∧
    (mkEnvelope r).ok = false := by
  have hok : okOf r.status = false := by rw [hst]; decide
  have hstatus : (mkEnvelope r).status = 401 := by simp [mkEnvelope, hst]
  refine ⟨?_, hstatus, by simp [mkEnvelope, hok], by simp [mkEnvelope, hok]⟩
  simp [generatedCall, hres, hstatus, hcb]

/-- Witness for claim C1 at a concrete 401 call. -/
theorem claim_C1_witness :
    generatedCall ⟨"/t", "GET"⟩ baseFix stdHeaders (.obj .fnil) none none
      (fun _ => .resp resp401) (fun _ => .ret) =
      ⟨.ok (mkEnvelope resp401), [buildRequest ⟨"/t", "GET"⟩ baseFix stdHeaders (.obj .fnil) ⟨none, none⟩], 1⟩ ∧
    (mkEnvelope resp401).status = 401 ∧ (mkEnvelope resp401).success = false ∧
    (mkEnvelope resp401).ok = false :=
  claim_C1 ⟨"/t", "GET"⟩ baseFix stdHeaders (.obj .fnil) none none ⟨none, none⟩
    resp401 (fun _ => .ret) rfl rfl rfl

/-- Fixture: a 401 call whose credential callback throws. -/
def throwingCbCall : CallResult :=
  generatedCall ⟨"/t", "GET"⟩ baseFix stdHeaders (.obj .fnil) none none
    (fun _ => .resp resp401) (fun _ => .raise ⟨"Error", "cb failed"⟩)

/-- Claim C2 counterexample: when the `onInvalidCredential` callback throws
on a 401, the call does NOT reject with the exception of the callback — the
exception is caught by the `catch` block that encloses the callback
invocation, and the call resolves with the status-0 failure envelope
carrying the message of the callback error.  The claim as stated (the promise rejects,
the exception is not caught) is therefore false at this input. -/
theorem claim_C2_counterexample :
    throwingCbCall.result = .ok (netErrEnvelope ⟨"Error", "cb failed"⟩) ∧
    (netErrEnvelope ⟨"Error", "cb failed"⟩).status = 0 ∧
    getField (netErrEnvelope ⟨"Error", "cb failed"⟩).response "message" = .str "cb failed" ∧
    throwingCbCall.cbCalls = 1 :=
  ⟨rfl, rfl, rfl, rfl⟩

/-- Claim C2 (amended): if the callback throws (or rejects) on a 401
response, the exception IS caught by the enclosing try/catch: the call still
resolves — to the status-0 failure envelope built from the thrown
exception (its message, or the timeout text if the exception is named
TimeoutError) — the envelope fields `success`/`ok` are false, and the callback
was still invoked exactly once. -/
theorem claim_C2 (cfg : EndpointConfig) (base : JsUrl) (dh : List (String × String))
    (session : JVal) (a b : Option JVal) (ra : ResolvedArgs) (r : HttpResp)
    (cb : Envelope → CbBehavior) (e : JsError)
    (hres : resolveArgs a b = .ok ra) (hst : r.status = 401)
    (hcb : cb (mkEnvelope r) = .raise e) :
    generatedCall cfg base dh session a b (fun _ => .resp r) cb =
      ⟨.ok (netErrEnvelope e), [buildRequest cfg base dh session ra], 1⟩ ∧
    (netErrEnvelope e).status = 0 ∧ (netErrEnvelope e).success = false ∧
    (netErrEnvelope e).ok = false ∧
    getField (netErrEnvelope e).response "message" = .str (clientErrorMessage e) := by
  have hstatus : (mkEnvelope r).status = 401 := by simp [mkEnvelope, hst]
  refine ⟨?_, rfl, rfl, rfl, ?_⟩
  · simp [generatedCall, hres, hstatus, hcb]
  · simp [netErrEnvelope, getField, JFields.lookup]

/-- Witness for the amended claim C2 at a concrete throwing callback. -/
theorem claim_C2_witness :
    generatedCall ⟨"/t", "GET"⟩ baseFix stdHeaders (.obj .fnil) none none
      (fun _ => .resp resp401) (fun _ => .raise ⟨"Error", "cb failed"⟩) =
      ⟨.ok (netErrEnvelope ⟨"Error", "cb failed"⟩),
       [buildRequest ⟨"/t", "GET"⟩ baseFix stdHeaders (.obj .fnil) ⟨none, none⟩], 1⟩ ∧
    (netErrEnvelope ⟨"Error", "cb failed"⟩).status = 0 ∧
    (netErrEnvelope ⟨"Error", "cb failed"⟩).success = false ∧
    (netErrEnvelope ⟨"Error", "cb failed"⟩).ok = false ∧
    getField (netErrEnvelope ⟨"Error", "cb failed"⟩).response "message" =
      .str (clientErrorMessage ⟨"Error", "cb failed"⟩) :=
  claim_C2 ⟨"/t", "GET"⟩ baseFix stdHeaders (.obj .fnil) none none ⟨none, none⟩
    resp401 (fun _ => .raise ⟨"Error", "cb failed"⟩) ⟨"Error", "cb failed"⟩ rfl rfl rfl

/-- Claim C5: a transport failure never rejects the call.  When the
configured timeout (default 30000 ms) expires, the abort machinery makes
the transport throw a TimeoutError, and the call resolves with an envelope
of status 0, `success = ok = false`, whose `response.message` is the
timeout-specific string rather than the raw transport error text; any other
transport failure also resolves with status 0 but carries the error
message of the transport. -/
theorem claim_C5 (cfg : EndpointConfig) (base : JsUrl) (dh : List (String × String))
    (session : JVal) (a b : Option JVal) (ra : ResolvedArgs) (e : JsError)
    (cb : Envelope → CbBehavior)
    (hres : resolveArgs a b = .ok ra) :
    generatedCall cfg base dh session a b (fun _ => .err e) cb =
      ⟨.ok (netErrEnvelope e), [buildRequest cfg base dh session ra], 0⟩ ∧
    (netErrEnvelope e).status = 0 ∧ (netErrEnvelope e).success = false ∧
    (netErrEnvelope e).ok = false ∧
    (e.name = "TimeoutError" →
      getField (netErrEnvelope e).response "message" = .str "Request timed out") ∧
    (e.name ≠ "TimeoutError" → e.message ≠ "" →
      getField (netErrEnvelope e).response "message" = .str e.message) ∧
    resolveTimeout none = 30000 := by
  refine ⟨by simp [generatedCall, hres], rfl, rfl, rfl, ?_, ?_, rfl⟩
  · intro ht
    simp [netErrEnvelope, getField, JFields.lookup, clientErrorMessage, ht]
  · intro ht hm
    simp [netErrEnvelope, getField, JFields.lookup, clientErrorMessage, ht, hm]

/-- Witness for claim C5 at a concrete timed-out call. -/
theorem claim_C5_witness :
    generatedCall ⟨"/t", "GET"⟩ baseFix stdHeaders (.obj .fnil) none none
      (fun _ => .err ⟨"TimeoutError", "The operation was aborted due to timeout"⟩)
      (fun _ => .ret) =
      ⟨.ok (netErrEnvelope ⟨"TimeoutError", "The operation was aborted due to timeout"⟩),
       [buildRequest ⟨"/t", "GET"⟩ baseFix stdHeaders (.obj .fnil) ⟨none, none⟩], 0⟩ ∧
    (netErrEnvelope ⟨"TimeoutError", "The operation was aborted due to timeout"⟩).status = 0 ∧
    (netErrEnvelope ⟨"TimeoutError", "The operation was aborted due to timeout"⟩).success = false ∧
    (netErrEnvelope ⟨"TimeoutError", "The operation was aborted due to timeout"⟩).ok = false ∧
    ((⟨"TimeoutError", "The operation was aborted due to timeout"⟩ : JsError).name = "TimeoutError" →
      getField (netErrEnvelope ⟨"TimeoutError", "The operation was aborted due to timeout"⟩).response "message" =
        .str "Request timed out") ∧
    ((⟨"TimeoutError", "The operation was aborted due to timeout"⟩ : JsError).name ≠ "TimeoutError" →
      (⟨"TimeoutError", "The operation was aborted due to timeout"⟩ : JsError).message ≠ "" →
      getField (netErrEnvelope ⟨"TimeoutError", "The operation was aborted due to timeout"⟩).response "message" =
        .str (⟨"TimeoutError", "The operation was aborted due to timeout"⟩ : JsError).message) ∧
    resolveTimeout none = 30000 :=
  claim_C5 ⟨"/t", "GET"⟩ baseFix stdHeaders (.obj .fnil) none none ⟨none, none⟩
    ⟨"TimeoutError", "The operation was aborted due to timeout"⟩ (fun _ => .ret) rfl

/-- Spine induction for `JFields` (no recursion into the values), packaged
as a recursor usable by the `induction` tactic. -/
def JFields.spineInd {P : JFields → Prop} (h1 : P .fnil)
    (h2 : ∀ k v tl, P tl → P (.fcons k v tl)) : ∀ fs, P fs
  | .fnil => h1
  | .fcons k v tl => h2 k v tl (JFields.spineInd h1 h2 tl)

/-- Spine induction for `JList`. -/
def JList.spineInd {P : JList → Prop} (h1 : P .nil)
    (h2 : ∀ v tl, P tl → P (.cons v tl)) : ∀ xs, P xs
  | .nil => h1
  | .cons v tl => h2 v tl (JList.spineInd h1 h2 tl)

/-- Spread of an object literal is its field list. -/
theorem spreadFields_obj (fs : JFields) : spreadFields (.obj fs) = fs := rfl

/-- If some `$params` entry is non-scalar, the forEach finds a first
offender. -/
theorem firstBadParam_isSome_of_mem (fs : JFields) (k : String) (v : JVal)
    (hmem : (k, v) ∈ fs.toList) (hbad : isNonScalarParam v = true) :
    ∃ p, firstBadParam fs = some p := by
  induction fs using JFields.spineInd with
  | h1 => simp [JFields.toList] at hmem
  | h2 k2 v2 tl ih =>
    by_cases h2 : isNonScalarParam v2 = true
    · exact ⟨(k2, v2), by simp [firstBadParam, h2]⟩
    · simp [JFields.toList] at hmem
      rcases hmem with ⟨hk, hv⟩ | hmem
      · exact absurd (hv ▸ hbad) h2
      · rcases ih hmem with ⟨p, hp⟩
        exact ⟨p, by simp [firstBadParam, h2, hp]⟩

/-- The forEach finds no offender exactly when every `$params` entry is
scalar. -/
theorem firstBadParam_none_iff (fs : JFields) :
    firstBadParam fs = none ↔ ∀ kv ∈ fs.toList, isNonScalarParam kv.2 = false := by
  induction fs using JFields.spineInd with
  | h1 => simp [firstBadParam, JFields.toList]
  | h2 k v tl ih =>
    by_cases h : isNonScalarParam v = true
    · simp [firstBadParam, h, JFields.toList]
    · simp only [Bool.not_eq_true] at h
      simp [firstBadParam, h, JFields.toList, ih]

/-- Claim C7: for a call made with a single object argument carrying an
object-typed `$params`, (1) if any value under `$params` is an object or an
array, the call fails with the validation error before any network
activity — for every transport and callback the result is the thrown error,
no request is issued and no envelope is produced; (2) if all `$params`
values are scalar, `$params` is extracted as the path-parameter source and
the remaining fields of (a shallow copy of) the bag form the payload. -/
theorem claim_C7 :
    (∀ (cfg : EndpointConfig) (base : JsUrl) (dh : List (String × String))
       (session : JVal) (fields : JFields) (pv : JVal) (k : String) (v : JVal)
       (net : HttpReq → FetchOutcome) (cb : Envelope → CbBehavior),
       fields.lookup "$params" = some pv → jsTruthy pv = true →
       typeofIsObject pv = true →
       (k, v) ∈ (jvalOwnEntries pv).toList → isNonScalarParam v = true →
       ∃ k2 v2, generatedCall cfg base dh session (some (.obj fields)) none net cb =
         ⟨.error (validationError k2 v2), [], 0⟩) ∧
    (∀ (fields : JFields) (pv : JVal),
       fields.lookup "$params" = some pv → jsTruthy pv = true →
       typeofIsObject pv = true →
       (∀ kv ∈ (jvalOwnEntries pv).toList, isNonScalarParam kv.2 = false) →
       resolveArgs (some (.obj fields)) none =
         .ok ⟨some pv, some (.obj (fields.erase "$params"))⟩) := by
  constructor
  · intro cfg base dh session fields pv k v net cb hlook htru htyp hmem hbad
    rcases firstBadParam_isSome_of_mem _ k v hmem hbad with ⟨⟨k2, v2⟩, hp⟩
    refine ⟨k2, v2, ?_⟩
    simp [generatedCall, resolveArgs, spreadFields_obj, hlook, htru, htyp, hp]
  · intro fields pv hlook htru htyp hall
    have hnone : firstBadParam (jvalOwnEntries pv) = none :=
      (firstBadParam_none_iff _).mpr hall
    simp [resolveArgs, spreadFields_obj, hlook, htru, htyp, hnone]

/-- Witness for claim C7: a bag whose `$params` holds an array value makes
the call fail with no request issued; a bag with scalar `$params` values
resolves into path parameters and the remaining payload. -/
theorem claim_C7_witness :
    (∃ k2 v2,
      generatedCall ⟨"/u/:id", "GET"⟩ baseFix stdHeaders (.obj .fnil)
        (some (.obj (.fcons "$params" (.obj (.fcons "id" (.arr .nil) .fnil))
          (.fcons "name" (.str "x") .fnil)))) none
        (fun _ => .err ⟨"TypeError", "x"⟩) (fun _ => .ret) =
        ⟨.error (validationError k2 v2), [], 0⟩) ∧
    resolveArgs (some (.obj (.fcons "$params" (.obj (.fcons "id" (.num 2) .fnil))
        (.fcons "name" (.str "x") .fnil))) ) none =
      .ok ⟨some (.obj (.fcons "id" (.num 2) .fnil)),
           some (.obj ((JFields.fcons "$params" (.obj (.fcons "id" (.num 2) .fnil))
             (.fcons "name" (.str "x") .fnil)).erase "$params"))⟩ :=
  ⟨claim_C7.1 ⟨"/u/:id", "GET"⟩ baseFix stdHeaders (.obj .fnil)
    (.fcons "$params" (.obj (.fcons "id" (.arr .nil) .fnil)) (.fcons "name" (.str "x") .fnil))
    (.obj (.fcons "id" (.arr .nil) .fnil)) "id" (.arr .nil)
    (fun _ => .err ⟨"TypeError", "x"⟩) (fun _ => .ret)
    rfl rfl rfl (by simp [jvalOwnEntries, JFields.toList]) rfl,
   claim_C7.2 (.fcons "$params" (.obj (.fcons "id" (.num 2) .fnil)) (.fcons "name" (.str "x") .fnil))
    (.obj (.fcons "id" (.num 2) .fnil)) rfl rfl rfl
    (by simp [jvalOwnEntries, JFields.toList, isNonScalarParam, typeofIsObject])⟩

/-- Reading past an append at a valid address sees the original heap. -/
theorem heapGet_append (h : ObjHeap) (x : JFields) (i : Nat) (hi : i < h.length) :
    heapGet (h ++ [x]) i = heapGet h i := by
  simp [heapGet, List.getD_eq_getElem?_getD, List.getElem?_append_left hi]

/-- Writing another address leaves a read unchanged. -/
theorem heapGet_set_ne (h : ObjHeap) (x : JFields) (i j : Nat) (hne : j ≠ i) :
    heapGet (h.set j x) i = heapGet h i := by
  simp [heapGet, List.getD_eq_getElem?_getD, List.getElem?_set_ne hne]

/-- Claim C10: the single-combined-argument resolution never mutates the
argument object of the caller.  In the heap model of source lines 132-144,
when resolution succeeds the object of the caller reads back unchanged (its `$params`
key and every original entry intact, since the `delete` acts on the spread
copy) and the payload object is a distinct allocation. -/
theorem claim_C10 (h : ObjHeap) (bagId : Nat) (h2 : ObjHeap) (p : Option JVal)
    (pid : Nat) (hvalid : bagId < h.length)
    (hok : resolveSingleArgHeap h bagId = .ok (h2, p, pid)) :
    heapGet h2 bagId = heapGet h bagId ∧ pid ≠ bagId := by
  have hne : h.length ≠ bagId := Nat.ne_of_gt hvalid
  unfold resolveSingleArgHeap at hok
  by_cases hguard : (jsTruthy (((heapGet (h ++ [heapGet h bagId]) h.length).lookup "$params").getD .undefined) &&
      typeofIsObject (((heapGet (h ++ [heapGet h bagId]) h.length).lookup "$params").getD .undefined)) = true
  · rw [if_pos hguard] at hok
    rcases hfb : firstBadParam (jvalOwnEntries (((heapGet (h ++ [heapGet h bagId]) h.length).lookup "$params").getD .undefined)) with _ | ⟨k, v⟩
    · rw [hfb] at hok
      simp only [Except.ok.injEq] at hok
      rcases hok with ⟨rfl, rfl, rfl⟩
      constructor
      · rw [heapGet_set_ne _ _ _ _ hne, heapGet_append _ _ _ hvalid]
      · exact hne
    · rw [hfb] at hok
      simp at hok
  · rw [if_neg hguard] at hok
    simp only [Except.ok.injEq] at hok
    rcases hok with ⟨rfl, rfl, rfl⟩
    exact ⟨heapGet_append _ _ _ hvalid, hne⟩

/-- Fixture: a combined bag object with scalar `$params` and one payload
entry. -/
def bagFix : JFields :=
  .fcons "$params" (.obj (.fcons "id" (.num 2) .fnil)) (.fcons "name" (.str "x") .fnil)

/-- Fixture: the heap holding only the bag. -/
def heapFix : ObjHeap := [bagFix]

/-- Fixture: the heap after resolution — the bag unchanged plus the mutated
copy. -/
def heapFix2 : ObjHeap := [bagFix, .fcons "name" (.str "x") .fnil]

/-- Witness for claim C10: a concrete bag keeps its `$params` entry after a
successful resolution, and the payload lives at a fresh address. -/
theorem claim_C10_witness :
    (0 : Nat) < heapFix.length ∧
    resolveSingleArgHeap heapFix 0 =
      .ok (heapFix2, some (.obj (.fcons "id" (.num 2) .fnil)), 1) ∧
    heapGet heapFix2 0 = heapGet heapFix 0 ∧ (1 : Nat) ≠ 0 :=
  ⟨by decide, by rfl,
   (claim_C10 heapFix 0 heapFix2 (some (.obj (.fcons "id" (.num 2) .fnil))) 1
     (by decide) (by rfl)).1,
   (claim_C10 heapFix 0 heapFix2 (some (.obj (.fcons "id" (.num 2) .fnil))) 1
     (by decide) (by rfl)).2⟩

/-- Specification-side query expansion (the wording of claim C8): each payload
entry becomes query pairs — null/undefined entries are skipped and array
values expand to one pair per element (null elements skipped), in payload
order. -/
def specQueryExpansion (entries : List (String × JVal)) : List (String × String) :=
  entries.flatMap fun kv =>
    match kv.2 with
    | .undefined => []
    | .null => []
    | .arr xs => xs.toList.filterMap fun x =>
        match x with
        | .null => none
        | w => some (kv.1, jsToString w)
    | w => [(kv.1, jsToString w)]

/-- The array query loop of the source equals the filterMap form. -/
theorem queryArr_eq_filterMap (k : String) (xs : JList) :
    queryArr k xs = xs.toList.filterMap fun x =>
      match x with
      | .null => none
      | w => some (k, jsToString w) := by
  induction xs using JList.spineInd with
  | h1 => simp [queryArr, JList.toList]
  | h2 v tl ih =>
    cases v <;> simp [queryArr, JList.toList, ih]

/-- The query loop of the source equals the specification-side expansion. -/
theorem buildQuery_eq_spec (fs : JFields) :
    buildQuery fs = specQueryExpansion fs.toList := by
  induction fs using JFields.spineInd with
  | h1 => simp [buildQuery, JFields.toList, specQueryExpansion]
  | h2 k v tl ih =>
    cases v <;>
      simp [buildQuery, JFields.toList, specQueryExpansion, queryEntry, ih,
        queryArr_eq_filterMap]

/-- Claim C8 counterexample: the claim says an empty resolved payload sends
no body, but a POST call whose payload is the empty object sends the JSON
body of the empty object — both at the encoder and through a full generated
call (reachable by passing `\x7b\x7d` as the single argument). -/
theorem claim_C8_counterexample :
    (prepareBody "POST" (some (.obj .fnil))).body = some (.str "\x7b\x7d") ∧
    (generatedCall ⟨"/t", "POST"⟩ baseFix stdHeaders (.obj .fnil)
      (some (.obj .fnil)) none (fun _ => .err ⟨"TypeError", "x"⟩)
      (fun _ => .ret)).requests.map (fun q => q.body) = [some (.str "\x7b\x7d")] :=
  ⟨rfl, rfl⟩

/-- Claim C8 (amended): an absent payload never produces a body (for any
method) and yields no query parameters; GET and DELETE calls never produce
a body for any payload, and the entries of an object payload become query
parameters in order — array values expanding to repeated pairs and
null/undefined entries skipped; but a POST whose resolved payload is the
empty object does produce a body, namely the JSON encoding of the empty
object with the JSON content type. -/
theorem claim_C8 :
    (∀ p, (prepareBody "GET" p).body = none) ∧
    (∀ p, (prepareBody "DELETE" p).body = none) ∧
    (∀ fs, (prepareBody "GET" (some (.obj fs))).query = specQueryExpansion fs.toList) ∧
    (∀ fs, (prepareBody "DELETE" (some (.obj fs))).query = specQueryExpansion fs.toList) ∧
    (∀ m, prepareBody m none = ⟨none, [], []⟩) ∧
    prepareBody "POST" (some (.obj .fnil)) =
      ⟨some (.str "\x7b\x7d"), [("Content-Type", "application/json")], []⟩ := by
  refine ⟨?_, ?_, ?_, ?_, ?_, rfl⟩
  · intro p
    unfold prepareBody
    by_cases h : jsTruthy (p.getD .undefined) = true <;> simp [h]
  · intro p
    unfold prepareBody
    by_cases h : jsTruthy (p.getD .undefined) = true <;> simp [h]
  · intro fs
    simp [prepareBody, jsTruthy, typeofIsObject, queryOf, buildQuery_eq_spec]
  · intro fs
    simp [prepareBody, jsTruthy, typeofIsObject, queryOf, buildQuery_eq_spec]
  · intro m
    simp [prepareBody, jsTruthy]

/-- Specification-side statement of "a file present at the top level or
directly inside a top-level array". -/
def specHasTopFile (entries : List (String × JVal)) : Prop :=
  ∃ kv ∈ entries,
    (∃ name, kv.2 = JVal.file name) ∨
    (∃ xs, kv.2 = JVal.arr xs ∧ ∃ x ∈ xs.toList, ∃ name, x = JVal.file name)

/-- The array element scan finds a `File` exactly when one is present. -/
theorem jlistAnyFile_iff (xs : JList) :
    jlistAnyFile xs = true ↔ ∃ x ∈ xs.toList, ∃ name, x = JVal.file name := by
  induction xs using JList.spineInd with
  | h1 => simp [jlistAnyFile, JList.toList]
  | h2 v tl ih =>
    cases v <;> simp [jlistAnyFile, JList.toList, isFileV, ih]

/-- The shallow `hasFiles` scan of the source holds exactly when a `File` sits at
the top level or directly inside a top-level array. -/
theorem hasFilesTop_iff (fs : JFields) :
    hasFilesTop fs = true ↔ specHasTopFile fs.toList := by
  induction fs using JFields.spineInd with
  | h1 => simp [hasFilesTop, JFields.toList, specHasTopFile]
  | h2 k v tl ih =>
    cases v <;>
      simp [hasFilesTop, JFields.toList, specHasTopFile, valHasFile, isFileV, ih,
        jlistAnyFile_iff]

/-- Fixture: a POST payload whose only file sits inside a nested object. -/
def nestedFilePayload : JVal :=
  .obj (.fcons "a" (.obj (.fcons "f" (.file "x.png") .fnil))
    (.fcons "name" (.str "n") .fnil))

/-- Claim C3 counterexample: this payload contains a binary file — nested
one object deep — yet the encoder JSON-encodes it (the `File` serializing
as an empty JSON object) instead of producing multipart form data, because
the `hasFiles` scan only inspects top-level values and direct elements of
top-level arrays.  The claimed "nested inside a nested object at any depth"
is therefore false at this input. -/
theorem claim_C3_counterexample :
    getField (getField nestedFilePayload "a") "f" = .file "x.png" ∧
    prepareBody "POST" (some nestedFilePayload) =
      ⟨some (.str "\x7b\"a\":\x7b\"f\":\x7b\x7d\x7d,\"name\":\"n\"\x7d"),
       [("Content-Type", "application/json")], []⟩ :=
  ⟨rfl, rfl⟩

/-- Claim C3 (amended): for POST/PUT/PATCH object payloads, the body is
multipart form data (with bracketed key nesting, `Content-Type` left unset)
exactly when a file sits at the top level of the payload or directly inside
a top-level array value; otherwise — even when a file is nested deeper —
the whole object is JSON-encoded with `Content-Type: application/json`. -/
theorem claim_C3 (m : String) (fs : JFields)
    (hm : m = "POST" ∨ m = "PUT" ∨ m = "PATCH") :
    (hasFilesTop fs = true →
      prepareBody m (some (.obj fs)) = ⟨some (.form (createFD none fs)), [], []⟩) ∧
    (hasFilesTop fs = false →
      prepareBody m (some (.obj fs)) =
        ⟨some (.str ((jsonStr (.obj fs)).getD "")),
         [("Content-Type", "application/json")], []⟩) ∧
    (hasFilesTop fs = true ↔ specHasTopFile fs.toList) := by
  refine ⟨?_, ?_, hasFilesTop_iff fs⟩ <;> intro hf <;>
    rcases hm with rfl | rfl | rfl <;> simp [prepareBody, jsTruthy, hf]

/-- Witness for the amended claim C3: a top-level file makes the body
multipart with no `Content-Type`; a file-free payload is JSON-encoded. -/
theorem claim_C3_witness :
    ((hasFilesTop (.fcons "doc" (.file "a.pdf") (.fcons "t" (.str "y") .fnil)) = true →
      prepareBody "POST" (some (.obj (.fcons "doc" (.file "a.pdf") (.fcons "t" (.str "y") .fnil)))) =
        ⟨some (.form (createFD none (.fcons "doc" (.file "a.pdf") (.fcons "t" (.str "y") .fnil)))), [], []⟩) ∧
     (hasFilesTop (.fcons "doc" (.file "a.pdf") (.fcons "t" (.str "y") .fnil)) = false →
      prepareBody "POST" (some (.obj (.fcons "doc" (.file "a.pdf") (.fcons "t" (.str "y") .fnil)))) =
        ⟨some (.str ((jsonStr (.obj (.fcons "doc" (.file "a.pdf") (.fcons "t" (.str "y") .fnil)))).getD "")),
         [("Content-Type", "application/json")], []⟩) ∧
     (hasFilesTop (.fcons "doc" (.file "a.pdf") (.fcons "t" (.str "y") .fnil)) = true ↔
      specHasTopFile (JFields.fcons "doc" (.file "a.pdf") (.fcons "t" (.str "y") .fnil)).toList)) ∧
    hasFilesTop (.fcons "doc" (.file "a.pdf") (.fcons "t" (.str "y") .fnil)) = true ∧
    prepareBody "POST" (some (.obj (.fcons "doc" (.file "a.pdf") (.fcons "t" (.str "y") .fnil)))) =
      ⟨some (.form [("doc", .file "a.pdf"), ("t", .str "y")]), [], []⟩ :=
  ⟨claim_C3 "POST" (.fcons "doc" (.file "a.pdf") (.fcons "t" (.str "y") .fnil)) (Or.inl rfl),
   rfl, rfl⟩

/-- The bearer-token header value the dispatcher injects, as a function of
the looked-up token value: only a truthy string token is used. -/
def authHeaderOf : JVal → Option String
  | .str s => if s = "" then none else some ("Bearer " ++ s)
  | _ => none

/-- Setting a header makes its (case-insensitive) lookup return the new
value. -/
theorem headersGet_headersSet_same (hs : List (String × String)) (name v : String) :
    headersGet (headersSet hs name v) name = some v := by
  unfold headersGet headersSet
  by_cases h : hs.any (fun p => p.1 = lowerStr name) = true
  · rw [if_pos h]
    induction hs with
    | nil => simp at h
    | cons hd tl ih =>
      by_cases hh : hd.1 = lowerStr name
      · simp only [List.map_cons, hh, if_true]
        rw [List.find?_cons_of_pos _ (by simp)]
        rfl
      · simp only [List.any_cons, hh, decide_eq_true_eq, Bool.false_or] at h
        simp only [List.map_cons, hh, if_false]
        rw [List.find?_cons_of_neg _ (by simp [hh])]
        exact ih (by simpa using h)
  · rw [if_neg h]
    have hnone : hs.find? (fun p => p.1 = lowerStr name) = none := by
      rw [List.find?_eq_none]
      intro x hx
      simp only [decide_eq_true_eq]
      intro hc
      exact h (List.any_eq_true.mpr ⟨x, hx, by simp [hc]⟩)
    rw [List.find?_append, hnone]
    simp

/-- The token-injection step yields exactly `authHeaderOf` of the looked-up
token, given that the headers assembled so far contain no authorization
entry. -/
theorem headersGet_auth_step (h1 : List (String × String)) (tok : JVal)
    (hnone : headersGet h1 "authorization" = none) :
    headersGet
      (if jsTruthy tok && isStrB tok then
        headersSet h1 "Authorization" ("Bearer " ++ strOf tok)
      else h1) "authorization" = authHeaderOf tok := by
  cases tok with
  | str s =>
    by_cases hs : s = ""
    · simp [jsTruthy, hs, authHeaderOf, hnone]
    · have hsame : headersGet (headersSet h1 "Authorization" ("Bearer " ++ s)) "authorization" =
          some ("Bearer " ++ s) := by
        have h2 := headersGet_headersSet_same h1 "Authorization" ("Bearer " ++ s)
        have hlow : lowerStr "Authorization" = lowerStr "authorization" := by rfl
        simpa [headersGet, headersSet, hlow] using h2
      simp [jsTruthy, hs, isStrB, strOf, authHeaderOf, hsame]
  | null => simpa [jsTruthy, authHeaderOf] using hnone
  | undefined => simpa [jsTruthy, authHeaderOf] using hnone
  | bool b => simpa [jsTruthy, isStrB, authHeaderOf, Bool.and_comm] using hnone
  | num n => simpa [jsTruthy, isStrB, authHeaderOf, Bool.and_comm] using hnone
  | file name => simpa [jsTruthy, isStrB, authHeaderOf, Bool.and_comm] using hnone
  | arr xs => simpa [jsTruthy, isStrB, authHeaderOf, Bool.and_comm] using hnone
  | obj fs => simpa [jsTruthy, isStrB, authHeaderOf, Bool.and_comm] using hnone

/-- The encoder only ever sets the JSON content type: its headers are empty
or exactly that one entry. -/
theorem prepHeadersCases (m : String) (p : Option JVal) :
    (prepareBody m p).headers = [] ∨
    (prepareBody m p).headers = [("Content-Type", "application/json")] := by
  unfold prepareBody
  by_cases h : jsTruthy (p.getD .undefined) = true
  · by_cases hm : (m = "GET" || m = "DELETE") = true
    · simp [h, hm]
    · rcases hp : p.getD .undefined with _ | _ | b | n | s | f | xs | fs <;>
        simp [h, hm, hp] <;> split_ifs <;> simp
  · simp [h]

/-- Fixture: a session snapshot whose `token` is a truthy non-string while
`access_token` is a proper string. -/
def maskedSession : JVal :=
  .obj (.fcons "token" (.num 5) (.fcons "access_token" (.str "abc") .fnil))

/-- Claim C9 counterexample: this session snapshot contains the string
`access_token = "abc"`, so the claim requires `Authorization: Bearer abc`;
but the source computes `token || access_token` first, the truthy non-string
`token` wins, fails the string check, and no Authorization header is
injected. -/
theorem claim_C9_counterexample :
    getField maskedSession "access_token" = .str "abc" ∧
    (generatedCall ⟨"/t", "GET"⟩ baseFix stdHeaders maskedSession none none
      (fun _ => .err ⟨"TypeError", "x"⟩) (fun _ => .ret)).requests.map
        (fun q => headersGet q.headers "authorization") = [none] :=
  ⟨rfl, rfl⟩

/-- Claim C9 (amended): before sending, the request carries
`Authorization: Bearer t` exactly when the value `session.token ||
session.access_token` (JS truthiness-based or) is a nonempty string `t`; in
particular a truthy non-string `token` suppresses injection even when
`access_token` is a string, and an empty-string `token` falls through to
`access_token`.  Otherwise no Authorization header is present. -/
theorem claim_C9 (cfg : EndpointConfig) (base : JsUrl) (session : JVal)
    (a b : Option JVal) (ra : ResolvedArgs) (net : HttpReq → FetchOutcome)
    (cb : Envelope → CbBehavior)
    (hres : resolveArgs a b = .ok ra) :
    (generatedCall cfg base stdHeaders session a b net cb).requests =
      [buildRequest cfg base stdHeaders session ra] ∧
    headersGet (buildRequest cfg base stdHeaders session ra).headers "authorization" =
      authHeaderOf (jsOr (getField session "token") (getField session "access_token")) := by
  constructor
  · simp only [generatedCall, hres]
    rcases hn : net (buildRequest cfg base stdHeaders session ra) with r | e
    · by_cases h4 : (mkEnvelope r).status = 401
      · rcases hcb : cb (mkEnvelope r) <;> simp [hn, h4, hcb]
      · simp [hn, h4]
    · simp [hn]
  · unfold buildRequest
    simp only
    apply headersGet_auth_step
    rcases prepHeadersCases cfg.method ra.payload with h | h <;>
      rw [h] <;> rfl

/-- Witness for the amended claim C9 at a session with a proper string
token. -/
theorem claim_C9_witness :
    (generatedCall ⟨"/t", "GET"⟩ baseFix stdHeaders
        (.obj (.fcons "token" (.str "tok123") .fnil)) none none
        (fun _ => .err ⟨"TypeError", "x"⟩) (fun _ => .ret)).requests =
      [buildRequest ⟨"/t", "GET"⟩ baseFix stdHeaders
        (.obj (.fcons "token" (.str "tok123") .fnil)) ⟨none, none⟩] ∧
    headersGet (buildRequest ⟨"/t", "GET"⟩ baseFix stdHeaders
        (.obj (.fcons "token" (.str "tok123") .fnil)) ⟨none, none⟩).headers "authorization" =
      authHeaderOf (jsOr (getField (.obj (.fcons "token" (.str "tok123") .fnil)) "token")
        (getField (.obj (.fcons "token" (.str "tok123") .fnil)) "access_token")) :=
  claim_C9 ⟨"/t", "GET"⟩ baseFix (.obj (.fcons "token" (.str "tok123") .fnil)) none none
    ⟨none, none⟩ (fun _ => .err ⟨"TypeError", "x"⟩) (fun _ => .ret) rfl

/-- Whether a character list contains a placeholder start (a colon followed
by a word character). -/
def hasPh : List Char → Bool
  | [] => false
  | [_] => false
  | c1 :: c2 :: rest => (c1 = Char.ofNat 58 && isWordCh c2) || hasPh (c2 :: rest)

/-- Whether a character list does not start with a word character. -/
def headNotWordB : List Char → Bool
  | [] => true
  | c :: _ => !isWordCh c

/-- Dropping word characters consumes an all-word run and stops at a
non-word head. -/
theorem dropWhile_word (name post : List Char)
    (hname : ∀ c ∈ name, isWordCh c = true) (hpost : headNotWordB post = true) :
    List.dropWhile isWordCh (name ++ post) = post := by
  induction name with
  | nil =>
    cases post with
    | nil => rfl
    | cons p rest =>
      simp only [headNotWordB, Bool.not_eq_true'] at hpost
      simp [List.dropWhile, hpost]
  | cons n0 ntl ih =>
    have h0 : isWordCh n0 = true := hname n0 (by simp)
    simp only [List.cons_append, List.dropWhile, h0]
    exact ih (fun c hc => hname c (by simp [hc]))

/-- Characterization of the first-placeholder replacement: if the path
splits as `pre ++ ":" ++ name ++ post` where `pre` contains no placeholder,
`name` is a nonempty run of word characters and `post` does not start with
a word character, then exactly that occurrence is replaced. -/
theorem replaceFirst_split (pre : List Char) :
    ∀ (name post rep : List Char),
    hasPh pre = false → name ≠ [] → (∀ c ∈ name, isWordCh c = true) →
    headNotWordB post = true →
    replaceFirstPhCh rep (pre ++ Char.ofNat 58 :: (name ++ post)) = pre ++ (rep ++ post) := by
  induction pre with
  | nil =>
    intro name post rep hpre hne hword hpost
    cases name with
    | nil => exact absurd rfl hne
    | cons n0 ntl =>
      have h0 : isWordCh n0 = true := hword n0 (by simp)
      have hdrop : List.dropWhile isWordCh ((n0 :: ntl) ++ post) = post :=
        dropWhile_word (n0 :: ntl) post hword hpost
      show replaceFirstPhCh rep (Char.ofNat 58 :: n0 :: (ntl ++ post)) = rep ++ post
      simp only [replaceFirstPhCh]
      rw [if_pos (by simp [h0])]
      simp only [List.cons_append] at hdrop
      rw [hdrop]
  | cons c pre2 ih =>
    intro name post rep hpre hne hword hpost
    cases pre2 with
    | nil =>
      have hcolon : isWordCh (Char.ofNat 58) = false := by decide
      cases name with
      | nil => exact absurd rfl hne
      | cons n0 ntl =>
        simp only [List.cons_append, List.nil_append]
        show replaceFirstPhCh rep (c :: Char.ofNat 58 :: (n0 :: ntl ++ post)) =
          c :: (rep ++ post)
        simp only [replaceFirstPhCh]
        rw [if_neg (by simp [hcolon])]
        have := ih (n0 :: ntl) post rep rfl (by simp) hword hpost
        simpa using this
    | cons d pre3 =>
      simp only [hasPh, Bool.or_eq_false_iff] at hpre
      simp only [List.cons_append]
      show replaceFirstPhCh rep (c :: d :: (pre3 ++ Char.ofNat 58 :: (name ++ post))) =
        c :: ((d :: pre3) ++ (rep ++ post))
      simp only [replaceFirstPhCh]
      rw [if_neg (by simp_all)]
      have := ih name post rep hpre.2 hne hword hpost
      simpa using this

/-- The substitution string used for a scalar path-parameter source:
`encodeURIComponent(String(p))` for strings and numbers, nothing
otherwise. -/
def scalarRep : JVal → Option String
  | .str s => some (encodeURIComponent s)
  | .num n => some (encodeURIComponent (toString n))
  | _ => none

/-- Claim C6: the URL builder joins the base path and the endpoint path
with exactly one separating slash (one trailing slash trimmed from the
base, one leading slash from the template), and a scalar (string/number)
parameter source replaces exactly the first `:name` placeholder of the
joined path, whatever the placeholder name — the text before it and
everything after it (including any later placeholders) is preserved.  In
particular base `http://h/api` with leaf path `/users/:id` called with the
scalar `2` yields exactly `http://h/api/users/2`. -/
theorem claim_C6 :
    (∀ (origin basePath tpl : String) (q : List (String × String)) (v : JVal)
       (repStr : String) (pre name post : List Char),
       scalarRep v = some repStr →
       (trimTrailSlash basePath ++ "/" ++ trimLeadSlash tpl).toList =
         pre ++ Char.ofNat 58 :: (name ++ post) →
       hasPh pre = false → name ≠ [] → (∀ c ∈ name, isWordCh c = true) →
       headNotWordB post = true →
       (buildUrl ⟨origin, basePath, q⟩ tpl (some v)).pathname =
         String.mk (pre ++ (repStr.toList ++ post))) ∧
    hrefOf (buildUrl ⟨"http://h", "/api", []⟩ "/users/:id" (some (.num 2))) =
      "http://h/api/users/2" := by
  refine ⟨?_, rfl⟩
  intro origin basePath tpl q v repStr pre name post hsc hsplit hpre hne hword hpost
  cases v with
  | str s =>
    simp only [scalarRep, Option.some.injEq] at hsc
    subst hsc
    simp only [buildUrl, replaceFirstPh]
    rw [hsplit, replaceFirst_split pre name post _ hpre hne hword hpost]
  | num n =>
    simp only [scalarRep, Option.some.injEq] at hsc
    subst hsc
    simp only [buildUrl, replaceFirstPh]
    rw [hsplit, replaceFirst_split pre name post _ hpre hne hword hpost]
  | null => simp [scalarRep] at hsc
  | undefined => simp [scalarRep] at hsc
  | bool b => simp [scalarRep] at hsc
  | file nm => simp [scalarRep] at hsc
  | arr xs => simp [scalarRep] at hsc
  | obj fs => simp [scalarRep] at hsc

/-- Witness for claim C6 at the concrete example of the claim. -/
theorem claim_C6_witness :
    (buildUrl ⟨"http://h", "/api", []⟩ "/users/:id" (some (.num 2))).pathname =
      String.mk ("/api/users/".toList ++ (("2" : String).toList ++ [])) :=
  claim_C6.1 "http://h" "/api" "/users/:id" [] (.num 2) "2"
    "/api/users/".toList "id".toList [] (by rfl) (by rfl) (by decide)
    (by decide) (by decide) (by rfl)

/-! Claim C4 material: a specification-side mirror of the walker
(refinement definitions following the words of the spec), a validity predicate,
and the structure-preservation proof. -/

mutual

/-- Specification-side validity of a configuration node: a leaf-shaped
object, a group object whose children are all valid, or a primitive
(number/string/boolean) that the walker merely skips.  Null and undefined
nodes are excluded — the source throws on them (see the claim C4
counterexample). -/
def okCfgVal : JVal → Bool
  | .obj fs => isLeafB (.obj fs) || okCfgFields fs
  | .num _ => true
  | .str _ => true
  | .bool _ => true
  | _ => false

/-- Validity of all children. -/
def okCfgFields : JFields → Bool
  | .fnil => true
  | .fcons _ v tl => okCfgVal v && okCfgFields tl

end

mutual

/-- Specification-side mirror of one node (the wording of claim C4): a node is a
leaf iff it has both a string `path` and a string `method`; leaves become
functions, other objects become groups mirrored recursively, anything else
is skipped. -/
def specMirrorVal (path : String) : JVal → Option ClientNode
  | .obj fs =>
    if isLeafB (.obj fs) then
      some (.func ⟨strOf (getField (.obj fs) "path"),
        strOf (getField (.obj fs) "method")⟩ path)
    else some (.group (specMirrorFields path fs))
  | _ => none

/-- Specification-side mirror of a field list, preserving names and order
and dropping skipped nodes. -/
def specMirrorFields (parent : String) : JFields → List (String × ClientNode)
  | .fnil => []
  | .fcons k v tl =>
    (match specMirrorVal (childPath parent k) v with
     | some n => [(k, n)]
     | none => []) ++ specMirrorFields parent tl

end

mutual

/-- Warnings the walker logs under a valid-or-skippable node. -/
def specWarnVal (path : String) : JVal → List String
  | .obj fs => if isLeafB (.obj fs) then [] else specWarnFields path fs
  | .num _ => [warnText path]
  | .str _ => [warnText path]
  | .bool _ => [warnText path]
  | _ => []

/-- Warnings under a field list. -/
def specWarnFields (parent : String) : JFields → List String
  | .fnil => []
  | .fcons k v tl => specWarnVal (childPath parent k) v ++ specWarnFields parent tl

end

/-- Strong-induction engine for claim C4: on valid-or-skippable input the
walker succeeds and produces exactly the specification-side mirror and
warnings. -/
theorem initEntries_ok_aux : ∀ (n : Nat),
    (∀ (v : JVal) (path : String), sizeOf v ≤ n → okCfgVal v = true →
      initEntryVal path v = .ok (specMirrorVal path v, specWarnVal path v)) ∧
    (∀ (fs : JFields) (parent : String), sizeOf fs ≤ n → okCfgFields fs = true →
      initEntries parent fs =
        .ok (specMirrorFields parent fs, specWarnFields parent fs)) := by
  intro n
  induction n using Nat.strong_induction_on with
  | _ n ih =>
    constructor
    · intro v path hsz hok
      cases v with
      | num m => simp [initEntryVal, isLeafB, getField, isStrB, specMirrorVal, specWarnVal]
      | str s => simp [initEntryVal, isLeafB, getField, isStrB, specMirrorVal, specWarnVal]
      | bool b => simp [initEntryVal, isLeafB, getField, isStrB, specMirrorVal, specWarnVal]
      | null => simp [okCfgVal] at hok
      | undefined => simp [okCfgVal] at hok
      | arr xs => simp [okCfgVal] at hok
      | file nm => simp [okCfgVal] at hok
      | obj fs =>
        by_cases hleaf : isLeafB (.obj fs) = true
        · simp [initEntryVal, hleaf, specMirrorVal, specWarnVal]
        · have hokf : okCfgFields fs = true := by
            simp only [okCfgVal, Bool.or_eq_true] at hok
            rcases hok with h | h
            · exact absurd h hleaf
            · exact h
          have hlt : sizeOf fs < n := by
            have : sizeOf fs < sizeOf (JVal.obj fs) := by
              simp only [JVal.obj.sizeOf_spec]; omega
            omega
          have hrec := (ih (sizeOf fs) hlt).2 fs path le_rfl hokf
          simp only [Bool.not_eq_true] at hleaf
          simp [initEntryVal, hleaf, hrec, specMirrorVal, specWarnVal]
    · intro fs parent hsz hok
      cases fs with
      | fnil => simp [initEntries, specMirrorFields, specWarnFields]
      | fcons k v tl =>
        simp only [okCfgFields, Bool.and_eq_true] at hok
        have hszv : sizeOf v < n := by
          have : sizeOf v < sizeOf (JFields.fcons k v tl) := by
            simp only [JFields.fcons.sizeOf_spec]; omega
          omega
        have hsztl : sizeOf tl < n := by
          have : sizeOf tl < sizeOf (JFields.fcons k v tl) := by
            simp only [JFields.fcons.sizeOf_spec]; omega
          omega
        have hv := (ih (sizeOf v) hszv).1 v (childPath parent k) le_rfl hok.1
        have htl := (ih (sizeOf tl) hsztl).2 tl parent le_rfl hok.2
        simp [initEntries, hv, htl, specMirrorFields, specWarnFields]

/-- Claim C4 counterexample: the claim says an invalid node (neither a
valid leaf nor an object) is skipped with a warning and construction still
succeeds — but a null node makes construction throw a TypeError from the
property read inside `_isActualEndpointConfig`, so the client is not built
at all. -/
theorem claim_C4_counterexample :
    initEndpoints (.fcons "a" .null .fnil) = .error (typeErrRead "null") := rfl

/-- Claim C4 (amended): for every endpoint tree whose nodes are valid
leaves (a node is a leaf iff it has both a string `path` and a string
`method`), groups (objects with valid children), or skippable primitives
(numbers/strings/booleans), construction succeeds and the generated client
has exactly the mirrored key structure at every depth — leaves become
functions, groups become nested objects, and each primitive node is
dropped with one warning; a null or undefined node, however, makes
construction throw a TypeError instead of being skipped. -/
theorem claim_C4 :
    (∀ (fs : JFields) (parent : String), okCfgFields fs = true →
      initEntries parent fs =
        .ok (specMirrorFields parent fs, specWarnFields parent fs)) ∧
    (∀ v : JVal, isLeafB v = true ↔
      ((∃ p, getField v "path" = .str p) ∧ (∃ m, getField v "method" = .str m))) := by
  constructor
  · intro fs parent hok
    exact (initEntries_ok_aux (sizeOf fs)).2 fs parent le_rfl hok
  · intro v
    constructor
    · intro h
      simp only [isLeafB, Bool.and_eq_true] at h
      rcases h with ⟨hp, hm⟩
      rcases hgp : getField v "path" with _ | _ | _ | _ | p | _ | _ | _ <;>
        rw [hgp] at hp <;> simp [isStrB] at hp ⊢
      rcases hgm : getField v "method" with _ | _ | _ | _ | m | _ | _ | _ <;>
        rw [hgm] at hm <;> simp [isStrB] at hm ⊢
    · intro ⟨⟨p, hp⟩, ⟨m, hm⟩⟩
      simp [isLeafB, hp, hm, isStrB]

/-- Fixture: a mixed endpoint tree — a group with a leaf inside, an invalid
numeric node, and a top-level leaf. -/
def mixedTree : JFields :=
  .fcons "auth"
    (.obj (.fcons "signin"
      (.obj (.fcons "path" (.str "/auth/signin") (.fcons "method" (.str "POST") .fnil)))
      .fnil))
    (.fcons "bad" (.num 5)
      (.fcons "me"
        (.obj (.fcons "path" (.str "/me") (.fcons "method" (.str "GET") .fnil)))
        .fnil))

/-- Witness for the amended claim C4 on the mixed tree: construction
succeeds, the mirror is produced (group kept, leaf functions kept, numeric
node dropped) and exactly one warning is emitted. -/
theorem claim_C4_witness :
    okCfgFields mixedTree = true ∧
    initEntries "" mixedTree =
      .ok (specMirrorFields "" mixedTree, specWarnFields "" mixedTree) ∧
    isLeafB (.obj (.fcons "path" (.str "/me") (.fcons "method" (.str "GET") .fnil))) = true :=
  ⟨rfl, claim_C4.1 mixedTree "" rfl, (claim_C4.2 _).mpr ⟨⟨"/me", rfl⟩, ⟨"GET", rfl⟩⟩⟩
